import Mathlib

/-
  Verification development for timothyb89/renamer (renamer.py).

  The program is embedded shallowly:
  * `Entry` mirrors the attrs record of renamer.py (paths as strings, byte
    size, duration).  Durations are floats in Python; they are idealised as
    rationals where only ordering matters (filtering) and as reals where the
    statistics engine is concerned.
  * External collaborators (ffprobe, pathlib directory iteration, the scipy
    inverse normal CDF, the compiled regex object and Python's str.format)
    are modelled as parameters: a compiled pattern is a function from the
    relative-path string to an optional match result, a format template is a
    function of the positional arguments and the keyword mapping, and the
    z-score lookup `scipy.stats.norm.ppf` is a real function parameter.
  * Stateful CLI behaviour (stderr diagnostics, sys.exit) is modelled with
    `Except`: an `Except.error` carries the data the error path prints and
    means the run halts before the plan is emitted.
-/

/-- Entry record of renamer.py (attrs class `Entry`): absolute path, path
relative to the parent of the scanned directory, file size and the probed
duration in seconds (a Python float, idealised as a rational). -/
structure Entry where
  abs_path : String
  rel_path : String
  size : Nat
  duration : Rat
  deriving DecidableEq

/-- Result type of `maybe_convert_int` (renamer.py lines 110-121): Python's
`Union[int, str]`. -/
inductive IntOrStr where
  | int : Int → IntOrStr
  | str : String → IntOrStr
  deriving DecidableEq

/-- Result of a successful `re.match`: the positional capture groups
(`m.groups()`) and the named capture groups (`m.groupdict()`). -/
structure MatchRes where
  groups : List String
  groupdict : List (String × String)
  deriving DecidableEq

/-- A compiled input regex (`re.compile(args.input_regex)`), modelled by its
observable behaviour on a relative-path string: `none` is a non-match. -/
abbrev Pattern : Type := String → Option MatchRes

/-- A destination template (`args.output_format`), modelled by its observable
behaviour under `str.format`: a function of the positional arguments and of
the keyword-argument mapping. -/
abbrev FormatFn : Type := List IntOrStr → (String → Option IntOrStr) → String

/-- Python whitespace stripped by `int(s)` (ASCII part: space, tab, newline,
carriage return, vertical tab, form feed). -/
def isPyWhitespace (c : Char) : Bool :=
  c == ' ' || c == '\t' || c == '\n' || c == '\r' ||
    c == Char.ofNat 11 || c == Char.ofNat 12

/-- Numeric value of an ASCII digit character. -/
def digitVal (c : Char) : Nat := c.toNat - '0'.toNat

/-- Remaining digits of a Python integer literal: further digits, with a
single underscore allowed between two digits (as accepted by Python's
`int`), rejecting a trailing or doubled underscore. -/
def pyDigitsAux : Nat → List Char → Option Nat
  | acc, [] => some acc
  | acc, '_' :: c :: rest =>
    if c.isDigit then pyDigitsAux (acc * 10 + digitVal c) rest else none
  | acc, c :: rest =>
    if c.isDigit then pyDigitsAux (acc * 10 + digitVal c) rest else none

/-- Digit part of a Python integer literal: one or more decimal digits with
optional single underscores between digits (leading underscore rejected). -/
def pyDigitPart : List Char → Option Nat
  | [] => none
  | c :: rest => if c.isDigit then pyDigitsAux (digitVal c) rest else none

/-- Leading and trailing whitespace stripping performed by `int(s)`. -/
def pyStrip (cs : List Char) : List Char :=
  ((cs.dropWhile isPyWhitespace).reverse.dropWhile isPyWhitespace).reverse

/-- Model of Python's builtin `int(s)` on strings (the collaborator used by
`maybe_convert_int`): optional surrounding whitespace, an optional sign,
then a decimal digit part; `none` models the `ValueError` branch.  Exotic
acceptances of CPython (non-ASCII digits, unicode spaces) are omitted: such
strings are never equal to `str(int(s))`, so `maybe_convert_int` returns the
original string for them either way. -/
def pyIntParse (s : String) : Option Int :=
  match pyStrip s.data with
  | '+' :: rest => (pyDigitPart rest).map (fun n => (n : Int))
  | '-' :: rest => (pyDigitPart rest).map (fun n => -(n : Int))
  | cs => (pyDigitPart cs).map (fun n => (n : Int))

/-- Model of Python's `str` on an int: sign then decimal digits, which is
exactly Lean's `toString` on `Int`. -/
def pyIntStr (n : Int) : String := toString n

/-- maybe_convert_int (renamer.py lines 110-121): try `int(s)`; if the
conversion succeeds and re-stringifying reproduces `s` exactly, return the
integer, otherwise return the original string. -/
def maybe_convert_int (s : String) : IntOrStr :=
  match pyIntParse s with
  | some conv => if pyIntStr conv = s then IntOrStr.int conv else IntOrStr.str s
  | none => IntOrStr.str s

/-- ranged_float (renamer.py lines 93-107), the argparse validator used for
`--confidence`: rejects a value strictly below `v_min` or strictly above
`v_max` with a `ValueError` (modelled as `Except.error` with the message
text), and returns the value otherwise.  Python float parsing of the raw
argument is the CLI collaborator; the numeric comparison logic is modelled
over rationals. -/
def ranged_float (v_min v_max v : Rat) : Except String Rat :=
  if v < v_min then
    Except.error ("value must be greater than " ++ toString v_min ++ ": " ++ toString v)
  else if v > v_max then
    Except.error ("value must be less than " ++ toString v_max ++ ": " ++ toString v)
  else
    Except.ok v

/-- Duration filter of main (renamer.py lines 227-235): keep entries with
`duration >= minimum_duration`; when `--max` is set, further keep only those
with `duration <= duration_upper`. -/
def filterKeep (files : List Entry) (minDur : Rat) (maxFlag : Bool) (upper : Rat) :
    List Entry :=
  let keep := files.filter (fun e => decide (minDur ≤ e.duration))
  if maxFlag then keep.filter (fun e => decide (e.duration ≤ upper)) else keep

/-- Lexicographic code-point comparison of character lists, as Python
compares strings. -/
def charListLt : List Char → List Char → Bool
  | [], [] => false
  | [], _ :: _ => true
  | _ :: _, [] => false
  | a :: as, b :: bs =>
    if a.toNat < b.toNat then true
    else if b.toNat < a.toNat then false
    else charListLt as bs

/-- Stable insertion of an entry into a list sorted by relative path; `e` is
placed before the first element that does not compare strictly below it,
matching the stability of Python's `sorted`. -/
def insertByRel (e : Entry) : List Entry → List Entry
  | [] => [e]
  | x :: xs =>
    if charListLt x.rel_path.data e.rel_path.data then x :: insertByRel e xs
    else e :: x :: xs

/-- Per-directory sorting of main (renamer.py line 188): the scanned entries
are sorted by the relative-path string.  (The source sorts twice — by
`str(e.rel_path)` then by the attrs field tuple led by `abs_path` — but for
entries of a single scanned directory both keys induce the same order, so a
single stable sort by `rel_path` is a faithful model.) -/
def sortByRel (l : List Entry) : List Entry := l.foldr insertByRel []

/-- Truncation of main (renamer.py lines 189-190): when `--exclude-after` is
given and truthy (Python `if args.exclude_after:` is false for `None` and
`0`), the directory's sorted entries are sliced as `entries[:n + 1]`. -/
def truncateDir (exclude_after : Option Nat) (entries : List Entry) : List Entry :=
  match exclude_after with
  | some n => if n ≠ 0 then entries.take (n + 1) else entries
  | none => entries

/-- Catalog contribution of one scanned directory (renamer.py lines 187-192):
sort by relative path, then apply the `--exclude-after` truncation. -/
def scanDir (exclude_after : Option Nat) (d : List Entry) : List Entry :=
  truncateDir exclude_after (sortByRel d)

/-- Catalog accumulation loop of main (renamer.py lines 186-192): directories
are processed in the order supplied and their sorted, truncated entries are
concatenated. -/
def buildFiles (exclude_after : Option Nat) (dirs : List (List Entry)) : List Entry :=
  dirs.foldl (fun files d => files ++ scanDir exclude_after d) []

/-- Splitting of a character list at a separator character, the groups in
order (an empty input gives one empty group, like `str.split`). -/
def splitOnChar (sep : Char) : List Char → List (List Char)
  | [] => [[]]
  | c :: cs =>
    if c = sep then [] :: splitOnChar sep cs
    else
      match splitOnChar sep cs with
      | [] => [[c]]
      | g :: gs => (c :: g) :: gs

/-- Final component of a path string, as `pathlib.PurePath.name`. -/
def lastComponent (p : String) : List Char :=
  ((splitOnChar '/' p.data).getLast?).getD p.data

/-- Model of `''.join(entry.rel_path.suffixes)` (renamer.py line 286):
pathlib computes the suffixes of the final component by stripping leading
dots and splitting the rest on dots; joining them yields everything from the
first interior dot on (names ending in a dot have no suffixes). -/
def suffixes_join (rel : String) : String :=
  let name := lastComponent rel
  if name.getLast? = some '.' then ""
  else
    match splitOnChar '.' (name.dropWhile (fun c => c = '.')) with
    | [] => ""
    | _ :: rest => String.mk ((rest.map (fun g => '.' :: g)).foldr (fun a b => a ++ b) [])

/-- Keyword arguments captured from the regex (renamer.py lines 277-279):
each named group's string is passed through `maybe_convert_int`. -/
def capturedKwargs (m : MatchRes) : String → Option IntOrStr :=
  fun k => (m.groupdict.lookup k).map maybe_convert_int

/-- Keyword mapping after the `format_kwargs.update` of renamer.py lines
283-287: the implicit variables `index`, `offset_index` and `extension`
override same-named captures; `i` is the value of Python's
`enumerate(keep)` counter for this entry. -/
def mergedKwargs (offset : Int) (i : Nat) (entry : Entry) (m : MatchRes) :
    String → Option IntOrStr :=
  fun k =>
    if k = "index" then some (IntOrStr.int (offset + (i : Int)))
    else if k = "offset_index" then some (IntOrStr.int (offset + (i : Int) + 1))
    else if k = "extension" then some (IntOrStr.str (suffixes_join entry.rel_path))
    else capturedKwargs m k

/-- Rendering of one substitution value, as Python's `str.format` renders an
`int` or `str` argument with an empty format spec. -/
def fmtVal : Option IntOrStr → String
  | some (IntOrStr.int n) => toString n
  | some (IntOrStr.str s) => s
  | none => ""

/-- The default destination template `E{offset_index}{extension}` of
renamer.py line 262, as a `FormatFn`. -/
def default_output_format : FormatFn :=
  fun _args kwargs => "E" ++ fmtVal (kwargs "offset_index") ++ fmtVal (kwargs "extension")

/-- Prefixing by the output base directory (renamer.py lines 291-292):
`args.output / new_path`. -/
def applyOutput (out : Option String) (p : String) : String :=
  match out with
  | some base => base ++ "/" ++ p
  | none => p

/-- Body of one iteration of the plan loop (renamer.py lines 267-294) for the
entry at enumerate counter `i`: on a pattern non-match the iteration
`continue`s (result `none`); otherwise the destination is the formatted
template under the captured and implicit variables, prefixed by the output
base, and the pair (absolute source, destination) is produced. -/
def synthStep (pat : Option Pattern) (fmt : FormatFn) (offset : Int)
    (out : Option String) (i : Nat) (entry : Entry) : Option (String × String) :=
  match pat with
  | some rx =>
    match rx entry.rel_path with
    | some m =>
      some (entry.abs_path,
        applyOutput out (fmt (m.groups.map maybe_convert_int) (mergedKwargs offset i entry m)))
    | none => none
  | none =>
    some (entry.abs_path,
      applyOutput out (fmt [] (mergedKwargs offset i entry ⟨[], []⟩)))

/-- The plan loop of renamer.py lines 265-294: `for i, entry in
enumerate(keep)`, accumulating the (source, destination) pairs; the counter
`i` advances for every kept entry, matched or not. -/
def synthesize (pat : Option Pattern) (fmt : FormatFn) (offset : Int)
    (out : Option String) : List Entry → Nat → List (String × String)
  | [], _ => []
  | e :: rest, i =>
    match synthStep pat fmt offset out i e with
    | some p => p :: synthesize pat fmt offset out rest (i + 1)
    | none => synthesize pat fmt offset out rest (i + 1)

/-- Data printed by the count-mismatch error path of renamer.py lines
246-250: the expected count, the actual kept count, and the process exit
status passed to `sys.exit`. -/
structure CountMismatch where
  expected : Int
  actual : Nat
  exit_code : Nat
  deriving DecidableEq

/-- main from the duration filter onward (renamer.py lines 227-294): compute
the kept entries, run the `--expect` assertion (which aborts with exit
status 1 before any plan is produced), then synthesize the rename plan. -/
def runFrom (files : List Entry) (minDur : Rat) (maxFlag : Bool) (upper : Rat)
    (expect : Option Int) (pat : Option Pattern) (fmt : FormatFn) (offset : Int)
    (out : Option String) : Except CountMismatch (List (String × String)) :=
  let keep := filterKeep files minDur maxFlag upper
  match expect with
  | some n =>
    if n ≠ (keep.length : Int) then Except.error ⟨n, keep.length, 1⟩
    else Except.ok (synthesize pat fmt offset out keep 0)
  | none => Except.ok (synthesize pat fmt offset out keep 0)

/-- The single-quote character, written by code point to keep the sources
readable. -/
def squoteChar : Char := Char.ofNat 39

/-- A one-character string holding a single quote. -/
def squote : String := String.mk [squoteChar]

/-- Directory-creation line of renamer.py line 303: the directory name
wrapped in single quotes with no escaping. -/
def mkdir_line (d : String) : String := "mkdir -p " ++ squote ++ d ++ squote

/-- Move line of renamer.py lines 306-308: source and destination each
wrapped in single quotes with no escaping. -/
def mv_line (src dest : String) : String :=
  "mv " ++ squote ++ src ++ squote ++ " " ++ squote ++ dest ++ squote

/-- POSIX-safe escaping of a character list for inclusion between single
quotes: an embedded single quote becomes close-quote, backslash-quote,
reopen-quote.  This is the behaviour the specification asks of the emitted
lines; it is compared against what the code actually does. -/
def shellEscapeList : List Char → List Char
  | [] => []
  | c :: cs =>
    (if c = squoteChar then [squoteChar, '\\', squoteChar, squoteChar] else [c])
      ++ shellEscapeList cs

/-- Modelled from the spec: shell-quoting-safe rendering of a path — the
path single-quoted with embedded single quotes escaped. -/
def shellQuote (s : String) : String :=
  squote ++ String.mk (shellEscapeList s.data) ++ squote

/-- Parent directory of a destination path string, as `Path.parent` behaves
on relative path strings (`.` for a bare filename). -/
def parentDir (p : String) : String :=
  match (p.splitOn "/").dropLast with
  | [] => "."
  | ps => String.intercalate "/" ps

/-- The set of parent directories to create (renamer.py lines 296-300): the
distinct destination parents for which the directory-existence collaborator
answers false.  Python iterates a `set`; the model keeps first occurrences. -/
def planDirs (dirExists : String → Bool) (paths : List (String × String)) : List String :=
  ((paths.map (fun p => parentDir p.2)).filter (fun d => !dirExists d)).dedup

/-- The emitted plan (renamer.py lines 302-308): one `mkdir -p` line per
directory to create, then one `mv` line per rename pair. -/
def emitLines (dirExists : String → Bool) (paths : List (String × String)) : List String :=
  (planDirs dirExists paths).map mkdir_line ++ paths.map (fun p => mv_line p.1 p.2)

noncomputable section

/-- statistics.mean (renamer.py line 77): the sample mean. -/
def listMean (l : List ℝ) : ℝ := l.sum / (l.length : ℝ)

/-- Python's builtin `max` on a nonempty list (renamer.py line 88); the
empty case (which raises in Python) is given a junk value. -/
def listMax : List ℝ → ℝ
  | [] => 0
  | x :: xs => xs.foldl max x

/-- statistics.stdev (renamer.py line 78): the Bessel-corrected sample
standard deviation. -/
def sampleStdev (l : List ℝ) : ℝ :=
  Real.sqrt (((l.map (fun x => (x - listMean l) ^ 2)).sum) / ((l.length : ℝ) - 1))

/-- The z-score lookup of renamer.py lines 81-82: the supplied confidence is
first mapped to the one-sided quantile `1 - (1 - confidence) / 2`, then fed
to the inverse normal CDF `ppf` (scipy, an external collaborator passed as a
function parameter). -/
def zscore (ppf : ℝ → ℝ) (confidence : ℝ) : ℝ := ppf (1 - (1 - confidence) / 2)

/-- ci_size of renamer.py line 84: `z * (stdev / sqrt(n))`. -/
def ci_size (ppf : ℝ → ℝ) (l : List ℝ) (confidence : ℝ) : ℝ :=
  zscore ppf confidence * (sampleStdev l / Real.sqrt (l.length : ℝ))

/-- confidence_interval (renamer.py lines 67-90) on a numeric sample: the
lower bound is clamped at 0 and the upper bound at the sample maximum. -/
def confidence_interval (ppf : ℝ → ℝ) (entries : List ℝ) (confidence : ℝ) : ℝ × ℝ :=
  (max 0 (listMean entries - ci_size ppf entries confidence),
   min (listMax entries) (listMean entries + ci_size ppf entries confidence))

end

/-- Concrete entry used in examples: a kept episode whose relative path the
sample pattern does not match. -/
def entryA : Entry := ⟨"/media/d/a.mkv", "d/a.mkv", 10, 1⟩

/-- Concrete entry used in examples: a kept episode whose relative path the
sample pattern matches. -/
def entryB : Entry := ⟨"/media/d/b.mkv", "d/b.mkv", 10, 1⟩

/-- Concrete compiled pattern used in examples: matches exactly the relative
path of `entryB`, with no capture groups. -/
def patB : Pattern :=
  fun s => if s = "d/b.mkv" then some ⟨[], []⟩ else none

/-- Concrete inverse-CDF stand-in used in examples: monotone and zero at the
median, like the standard normal quantile function. -/
noncomputable def wppf : ℝ → ℝ := fun q => q - 1 / 2

/-- Concrete entries of one scanned directory, already in sorted order. -/
def e1c : Entry := ⟨"/media/d/e1.mkv", "d/e1.mkv", 1, 600⟩

/-- Second concrete entry of the scanned directory. -/
def e2c : Entry := ⟨"/media/d/e2.mkv", "d/e2.mkv", 1, 600⟩

/-- Third concrete entry of the scanned directory. -/
def e3c : Entry := ⟨"/media/d/e3.mkv", "d/e3.mkv", 1, 600⟩

/-- A path containing an embedded single quote. -/
def quoteName : String := String.mk ['a', squoteChar, 'b']

/- Helper lemmas. -/

theorem foldl_max_init_le (xs : List ℝ) : ∀ a : ℝ, a ≤ xs.foldl max a := by
  induction xs with
  | nil => intro a; exact le_refl a
  | cons y ys ih =>
    intro a
    exact le_trans (le_max_left a y) (ih (max a y))

theorem mem_le_foldl_max (xs : List ℝ) : ∀ (a x : ℝ), x ∈ xs → x ≤ xs.foldl max a := by
  induction xs with
  | nil => intro a x hx; cases hx
  | cons y ys ih =>
    intro a x hx
    rcases List.mem_cons.mp hx with h | h
    · subst h
      exact le_trans (le_max_right a x) (foldl_max_init_le ys (max a x))
    · exact ih (max a y) x h

theorem le_listMax (l : List ℝ) (x : ℝ) (hx : x ∈ l) : x ≤ listMax l := by
  cases l with
  | nil => cases hx
  | cons c cs =>
    rcases List.mem_cons.mp hx with h | h
    · subst h
      exact foldl_max_init_le cs x
    · exact mem_le_foldl_max cs c x h

theorem listMean_le_listMax (l : List ℝ) (hl : l ≠ []) : listMean l ≤ listMax l := by
  have hn : 0 < (l.length : ℝ) := by
    have h1 : 0 < l.length := List.length_pos.mpr hl
    exact_mod_cast h1
  have hsum : l.sum ≤ (l.length : ℝ) * listMax l := by
    have h2 := List.sum_le_card_nsmul l (listMax l) (fun x hx => le_listMax l x hx)
    simpa [nsmul_eq_mul] using h2
  unfold listMean
  rw [div_le_iff₀ hn, mul_comm]
  exact hsum

theorem shellEscapeList_no_quote (l : List Char) (h : squoteChar ∉ l) :
    shellEscapeList l = l := by
  induction l with
  | nil => rfl
  | cons c cs ih =>
    have hc : ¬ c = squoteChar := by
      intro e
      exact h (by rw [e]; exact List.mem_cons_self _ _)
    have hcs : squoteChar ∉ cs := fun hm => h (List.mem_cons_of_mem _ hm)
    simp [shellEscapeList, hc, ih hcs]

theorem shellQuote_no_quote (s : String) (h : squoteChar ∉ s.data) :
    shellQuote s = squote ++ s ++ squote := by
  unfold shellQuote
  rw [shellEscapeList_no_quote s.data h]

theorem synthStep_mem (pat : Option Pattern) (fmt : FormatFn) (offset : Int)
    (out : Option String) (keep : List Entry) :
    ∀ (j i : Nat) (e : Entry) (p : String × String),
      keep[i]? = some e → synthStep pat fmt offset out (j + i) e = some p →
      p ∈ synthesize pat fmt offset out keep j := by
  induction keep with
  | nil => intro j i e p hget _; simp at hget
  | cons x rest ih =>
    intro j i e p hget hstep
    cases i with
    | zero =>
      simp only [List.getElem?_cons_zero, Option.some.injEq] at hget
      subst hget
      simp only [Nat.add_zero] at hstep
      simp only [synthesize, hstep]
      exact List.mem_cons_self _ _
    | succ k =>
      have hget2 : rest[k]? = some e := by simpa using hget
      have hstep2 : synthStep pat fmt offset out ((j + 1) + k) e = some p := by
        have he : j + (k + 1) = (j + 1) + k := by omega
        rw [he] at hstep
        exact hstep
      have hmem := ih (j + 1) k e p hget2 hstep2
      cases hx : synthStep pat fmt offset out j x with
      | none => simp only [synthesize, hx]; exact hmem
      | some q => simp only [synthesize, hx]; exact List.mem_cons_of_mem _ hmem

theorem synthesize_sources (pat : Pattern) (fmt : FormatFn) (offset : Int)
    (out : Option String) (keep : List Entry) :
    ∀ (j : Nat) (p : String × String), p ∈ synthesize (some pat) fmt offset out keep j →
      ∃ (i : Nat) (e : Entry), keep[i]? = some e ∧ (pat e.rel_path).isSome
        ∧ p.1 = e.abs_path := by
  induction keep with
  | nil => intro j p hp; simp [synthesize] at hp
  | cons x rest ih =>
    intro j p hp
    cases hx : pat x.rel_path with
    | none =>
      have hstep : synthStep (some pat) fmt offset out j x = none := by
        simp [synthStep, hx]
      simp only [synthesize, hstep] at hp
      obtain ⟨i, e, h1, h2, h3⟩ := ih (j + 1) p hp
      exact ⟨i + 1, e, by simpa using h1, h2, h3⟩
    | some m =>
      have hstep : synthStep (some pat) fmt offset out j x
          = some (x.abs_path, applyOutput out
              (fmt (m.groups.map maybe_convert_int) (mergedKwargs offset j x m))) := by
        simp [synthStep, hx]
      simp only [synthesize, hstep] at hp
      rcases List.mem_cons.mp hp with h | h
      · refine ⟨0, x, by simp, by simp [hx], ?_⟩
        rw [h]
      · obtain ⟨i, e, h1, h2, h3⟩ := ih (j + 1) p h
        exact ⟨i + 1, e, by simpa using h1, h2, h3⟩

theorem synthesize_length (pat : Pattern) (fmt : FormatFn) (offset : Int)
    (out : Option String) (keep : List Entry) :
    ∀ j : Nat, (synthesize (some pat) fmt offset out keep j).length
      = (keep.filter (fun e => (pat e.rel_path).isSome)).length := by
  induction keep with
  | nil => intro j; simp [synthesize]
  | cons x rest ih =>
    intro j
    cases hx : pat x.rel_path with
    | none =>
      have hstep : synthStep (some pat) fmt offset out j x = none := by
        simp [synthStep, hx]
      simp [synthesize, hstep, hx, ih (j + 1)]
    | some m =>
      have hstep : synthStep (some pat) fmt offset out j x
          = some (x.abs_path, applyOutput out
              (fmt (m.groups.map maybe_convert_int) (mergedKwargs offset j x m))) := by
        simp [synthStep, hx]
      simp [synthesize, hstep, hx, ih (j + 1)]

/- Claim theorems. -/

/-- C1: for every sample of at least 2 non-negative numbers and every
confidence in (0,1), `confidence_interval` returns `(lower, upper)` with
`0 <= lower <= mean <= upper <= max(sample)`, where
`lower = max(0, mean - margin)` and `upper = min(max(sample), mean + margin)`;
the inverse normal CDF is any function that is non-negative at or above the
median quantile, as `scipy.stats.norm.ppf` is. -/
theorem confidence_interval_bounds (ppf : ℝ → ℝ) (entries : List ℝ) (confidence : ℝ)
    (hlen : 2 ≤ entries.length) (hnn : ∀ x ∈ entries, 0 ≤ x)
    (hc0 : 0 < confidence) (_hc1 : confidence < 1)
    (hppf : ∀ q : ℝ, 1 / 2 ≤ q → 0 ≤ ppf q) :
    0 ≤ (confidence_interval ppf entries confidence).1
    ∧ (confidence_interval ppf entries confidence).1 ≤ listMean entries
    ∧ listMean entries ≤ (confidence_interval ppf entries confidence).2
    ∧ (confidence_interval ppf entries confidence).2 ≤ listMax entries
    ∧ (confidence_interval ppf entries confidence).1
        = max 0 (listMean entries - ci_size ppf entries confidence)
    ∧ (confidence_interval ppf entries confidence).2
        = min (listMax entries) (listMean entries + ci_size ppf entries confidence) := by
  have hne : entries ≠ [] := by
    intro h
    rw [h] at hlen
    simp at hlen
  have hcs : 0 ≤ ci_size ppf entries confidence := by
    unfold ci_size zscore
    exact mul_nonneg (hppf _ (by linarith))
      (div_nonneg (Real.sqrt_nonneg _) (Real.sqrt_nonneg _))
  have hmean0 : 0 ≤ listMean entries := by
    unfold listMean
    exact div_nonneg (List.sum_nonneg hnn) (Nat.cast_nonneg _)
  have hmeanmax : listMean entries ≤ listMax entries := listMean_le_listMax entries hne
  unfold confidence_interval
  exact ⟨le_max_left _ _, max_le hmean0 (by linarith), le_min hmeanmax (by linarith),
    min_le_left _ _, rfl, rfl⟩

/-- Witness for C1: the theorem applied to the sample [1, 3] with confidence
1/2 and a concrete median-zero monotone quantile function. -/
theorem confidence_interval_bounds_witness :
    2 ≤ ([(1 : ℝ), 3]).length ∧ 0 < (1 / 2 : ℝ) ∧ (1 / 2 : ℝ) < 1
    ∧ 0 ≤ (confidence_interval wppf [1, 3] (1 / 2)).1
    ∧ (confidence_interval wppf [1, 3] (1 / 2)).1 ≤ listMean [1, 3]
    ∧ listMean [1, 3] ≤ (confidence_interval wppf [1, 3] (1 / 2)).2
    ∧ (confidence_interval wppf [1, 3] (1 / 2)).2 ≤ listMax [1, 3] := by
  have h := confidence_interval_bounds wppf [1, 3] (1 / 2) (by norm_num)
    (by intro x hx; simp at hx; rcases hx with rfl | rfl <;> norm_num)
    (by norm_num) (by norm_num)
    (by intro q hq; simp only [wppf]; linarith)
  exact ⟨by norm_num, by norm_num, by norm_num, h.1, h.2.1, h.2.2.1, h.2.2.2.1⟩

/-- C10: holding the sample fixed, the width of the returned interval is
monotone non-decreasing in the confidence parameter, for any monotone
inverse CDF (as `scipy.stats.norm.ppf` is on its domain). -/
theorem confidence_interval_width_monotone (ppf : ℝ → ℝ) (entries : List ℝ)
    (c1 c2 : ℝ) (_hlen : 2 ≤ entries.length) (_hc1 : 0 < c1) (hc12 : c1 ≤ c2)
    (_hc2 : c2 < 1) (hmono : Monotone ppf) :
    (confidence_interval ppf entries c1).2 - (confidence_interval ppf entries c1).1
      ≤ (confidence_interval ppf entries c2).2 - (confidence_interval ppf entries c2).1 := by
  have hz : zscore ppf c1 ≤ zscore ppf c2 := by
    unfold zscore
    exact hmono (by linarith)
  have hcs : ci_size ppf entries c1 ≤ ci_size ppf entries c2 := by
    unfold ci_size
    exact mul_le_mul_of_nonneg_right hz
      (div_nonneg (Real.sqrt_nonneg _) (Real.sqrt_nonneg _))
  unfold confidence_interval
  have h1 : min (listMax entries) (listMean entries + ci_size ppf entries c1)
      ≤ min (listMax entries) (listMean entries + ci_size ppf entries c2) :=
    min_le_min le_rfl (by linarith)
  have h2 : max 0 (listMean entries - ci_size ppf entries c2)
      ≤ max 0 (listMean entries - ci_size ppf entries c1) :=
    max_le_max le_rfl (by linarith)
  simp only []
  linarith

/-- Witness for C10: the theorem applied to the sample [1, 3] at confidences
1/4 and 1/2 with a concrete monotone quantile function. -/
theorem confidence_interval_width_monotone_witness :
    (0 : ℝ) < 1 / 4 ∧ (1 / 4 : ℝ) ≤ 1 / 2 ∧ (1 / 2 : ℝ) < 1
    ∧ (confidence_interval wppf [1, 3] (1 / 4)).2
        - (confidence_interval wppf [1, 3] (1 / 4)).1
      ≤ (confidence_interval wppf [1, 3] (1 / 2)).2
        - (confidence_interval wppf [1, 3] (1 / 2)).1 := by
  refine ⟨by norm_num, by norm_num, by norm_num, ?_⟩
  exact confidence_interval_width_monotone wppf [1, 3] (1 / 4) (1 / 2) (by norm_num)
    (by norm_num) (by norm_num) (by norm_num)
    (by intro a b hab; simp only [wppf]; linarith)

/-- C4: `maybe_convert_int` returns the parsed integer exactly when the
string is the canonical decimal form (re-stringifying reproduces it), and
returns the original string otherwise, including on "007", "1.5", "abc" and
" 3". -/
theorem maybe_convert_int_roundtrip :
    (∀ (s : String) (n : Int), pyIntParse s = some n → pyIntStr n = s →
      maybe_convert_int s = IntOrStr.int n)
    ∧ (∀ (s : String) (n : Int), maybe_convert_int s = IntOrStr.int n →
      pyIntParse s = some n ∧ pyIntStr n = s)
    ∧ (∀ s : String, (¬ ∃ n : Int, pyIntParse s = some n ∧ pyIntStr n = s) →
      maybe_convert_int s = IntOrStr.str s)
    ∧ maybe_convert_int "007" = IntOrStr.str "007"
    ∧ maybe_convert_int "1.5" = IntOrStr.str "1.5"
    ∧ maybe_convert_int "abc" = IntOrStr.str "abc"
    ∧ maybe_convert_int " 3" = IntOrStr.str " 3" := by
  refine ⟨?_, ?_, ?_, by decide, by decide, by decide, by decide⟩
  · intro s n h1 h2
    simp [maybe_convert_int, h1, h2]
  · intro s n h
    unfold maybe_convert_int at h
    cases hp : pyIntParse s with
    | none => rw [hp] at h; simp at h
    | some k =>
      rw [hp] at h
      have h2 : (if pyIntStr k = s then IntOrStr.int k else IntOrStr.str s)
          = IntOrStr.int n := h
      by_cases hs : pyIntStr k = s
      · rw [if_pos hs] at h2
        cases h2
        exact ⟨rfl, hs⟩
      · rw [if_neg hs] at h2
        simp at h2
  · intro s h
    cases hp : pyIntParse s with
    | none => simp [maybe_convert_int, hp]
    | some k =>
      by_cases hs : pyIntStr k = s
      · exact absurd ⟨k, hp, hs⟩ h
      · simp [maybe_convert_int, hp, hs]

/-- Witness for C4: the canonical string "42" round-trips and is converted
to the integer 42. -/
theorem maybe_convert_int_roundtrip_witness :
    pyIntParse "42" = some 42 ∧ pyIntStr 42 = "42"
    ∧ maybe_convert_int "42" = IntOrStr.int 42 :=
  ⟨by decide, by decide, maybe_convert_int_roundtrip.1 "42" 42 (by decide) (by decide)⟩

/-- C6 (code evaluated at the failing input): the argparse validator built
by `ranged_float(0.0, 1)` accepts both endpoints 0 and 1, because its checks
are strict inequalities; the claim (and the option's own help text `0<x<1`)
requires the endpoints to be rejected. -/
theorem ranged_float_accepts_endpoints :
    ranged_float 0 1 1 = Except.ok 1 ∧ ranged_float 0 1 0 = Except.ok 0 := by
  constructor <;> rfl

/-- C7: the kept sequence is exactly the original catalog filtered by
`duration >= minimum`, further restricted to `duration <= maximum` only when
the long-outlier flag is set, and it is a subsequence of the catalog (the
filter never reorders entries). -/
theorem filterKeep_subsequence (files : List Entry) (minDur upper : Rat)
    (maxFlag : Bool) :
    filterKeep files minDur maxFlag upper
      = files.filter (fun e =>
          decide (minDur ≤ e.duration) && (!maxFlag || decide (e.duration ≤ upper)))
    ∧ List.Sublist (filterKeep files minDur maxFlag upper) files := by
  constructor
  · cases maxFlag with
    | false => simp [filterKeep]
    | true =>
      simp only [filterKeep, if_true, List.filter_filter, Bool.not_true, Bool.false_or]
      exact List.filter_congr (fun a _ => Bool.and_comm _ _)
  · cases maxFlag with
    | false =>
      simp only [filterKeep, Bool.false_eq_true, if_false]
      exact List.filter_sublist _
    | true =>
      simp only [filterKeep, if_true]
      exact List.Sublist.trans (List.filter_sublist _) (List.filter_sublist _)

/-- C5: whenever an expected count is set and the kept count differs, the
run fails before the rename-plan stage with an error carrying both counts
and exit status 1; the `Except.error` result means no plan line is
produced. -/
theorem expect_mismatch_halts (files : List Entry) (minDur : Rat) (maxFlag : Bool)
    (upper : Rat) (n : Int) (pat : Option Pattern) (fmt : FormatFn) (offset : Int)
    (out : Option String)
    (h : n ≠ ((filterKeep files minDur maxFlag upper).length : Int)) :
    runFrom files minDur maxFlag upper (some n) pat fmt offset out
      = Except.error ⟨n, (filterKeep files minDur maxFlag upper).length, 1⟩ := by
  simp [runFrom, h]

/-- Witness for C5: expecting 5 episodes while the filter keeps none aborts
with the mismatch error carrying both counts. -/
theorem expect_mismatch_halts_witness :
    (5 : Int) ≠ ((filterKeep [entryA] 99 false 0).length : Int)
    ∧ runFrom [entryA] 99 false 0 (some 5) none default_output_format 0 none
        = Except.error ⟨5, (filterKeep [entryA] 99 false 0).length, 1⟩ :=
  ⟨by decide, expect_mismatch_halts [entryA] 99 false 0 5 none default_output_format 0 none
    (by decide)⟩

/-- C3: every pair of the emitted plan stems from a kept entry whose
relative path matches the pattern (a non-matching entry contributes no plan
pair), while the expected-count assertion compares against the length of the
kept list computed before pattern application — in both its passing and its
failing branch. -/
theorem kept_count_vs_plan (pat : Pattern) (fmt : FormatFn) (offset : Int)
    (out : Option String) (files : List Entry) (minDur : Rat) (maxFlag : Bool)
    (upper : Rat) (n : Int) :
    (∀ p ∈ synthesize (some pat) fmt offset out (filterKeep files minDur maxFlag upper) 0,
      ∃ (i : Nat) (e : Entry), (filterKeep files minDur maxFlag upper)[i]? = some e
        ∧ (pat e.rel_path).isSome ∧ p.1 = e.abs_path)
    ∧ (n = ((filterKeep files minDur maxFlag upper).length : Int) →
        runFrom files minDur maxFlag upper (some n) (some pat) fmt offset out
          = Except.ok (synthesize (some pat) fmt offset out
              (filterKeep files minDur maxFlag upper) 0))
    ∧ (n ≠ ((filterKeep files minDur maxFlag upper).length : Int) →
        runFrom files minDur maxFlag upper (some n) (some pat) fmt offset out
          = Except.error ⟨n, (filterKeep files minDur maxFlag upper).length, 1⟩) := by
  refine ⟨?_, ?_, ?_⟩
  · intro p hp
    exact synthesize_sources pat fmt offset out (filterKeep files minDur maxFlag upper) 0 p hp
  · intro h
    simp [runFrom, h]
  · intro h
    simp [runFrom, h]

/-- Witness for C3: with one kept entry not matching the pattern, the kept
count checked is still 2, so expecting 7 aborts with actual count 2. -/
theorem kept_count_vs_plan_witness :
    (7 : Int) ≠ ((filterKeep [entryA, entryB] 0 false 0).length : Int)
    ∧ runFrom [entryA, entryB] 0 false 0 (some 7) (some patB) default_output_format 0 none
        = Except.error ⟨7, (filterKeep [entryA, entryB] 0 false 0).length, 1⟩ :=
  ⟨by decide,
    (kept_count_vs_plan patB default_output_format 0 none [entryA, entryB] 0 false 0 7).2.2
      (by decide)⟩

/-- C2 (counterexample): with kept entries [entryA, entryB] where only
entryB matches the pattern, the sole formatted entry receives offset_index
2, not 1 — the skipped entry advanced the numbering, contradicting the
claim that skipped entries contribute nothing to numbering. -/
theorem synthesize_skip_advances_numbering :
    synthesize (some patB) default_output_format 0 none [entryA, entryB] 0
      = [("/media/d/b.mkv", "E2.mkv")]
    ∧ ("/media/d/b.mkv", "E1.mkv")
        ∉ synthesize (some patB) default_output_format 0 none [entryA, entryB] 0 := by
  constructor
  · decide
  · decide

/-- C2 (amended): an entry at 0-based position `i` of the kept sequence that
matches the pattern yields a plan pair formatted with `index = offset + i`
and `offset_index = offset + i + 1`, where `i` counts every kept entry —
matched or skipped; skipped entries produce no pair (the plan has exactly
one pair per matching entry) but still advance the numbering of later
entries. -/
theorem synthesize_position_numbering (pat : Pattern) (fmt : FormatFn) (offset : Int)
    (out : Option String) (keep : List Entry) (i : Nat) (e : Entry) (m : MatchRes)
    (hget : keep[i]? = some e) (hm : pat e.rel_path = some m) :
    ((e.abs_path, applyOutput out
        (fmt (m.groups.map maybe_convert_int) (mergedKwargs offset i e m)))
      ∈ synthesize (some pat) fmt offset out keep 0)
    ∧ mergedKwargs offset i e m "index" = some (IntOrStr.int (offset + (i : Int)))
    ∧ mergedKwargs offset i e m "offset_index"
        = some (IntOrStr.int (offset + (i : Int) + 1))
    ∧ (synthesize (some pat) fmt offset out keep 0).length
        = (keep.filter (fun e2 => (pat e2.rel_path).isSome)).length := by
  refine ⟨?_, ?_, ?_, ?_⟩
  · have h0 : synthStep (some pat) fmt offset out (0 + i) e
        = some (e.abs_path, applyOutput out
            (fmt (m.groups.map maybe_convert_int) (mergedKwargs offset i e m))) := by
      rw [Nat.zero_add]
      simp [synthStep, hm]
    exact synthStep_mem (some pat) fmt offset out keep 0 i e _ hget h0
  · simp [mergedKwargs]
  · simp [mergedKwargs]
  · exact synthesize_length pat fmt offset out keep 0

/-- Witness for C2's amended theorem: entryB sits at kept position 1 behind
the skipped entryA and is formatted with index 1 and offset_index 2. -/
theorem synthesize_position_numbering_witness :
    ((entryB.abs_path, applyOutput none
        (default_output_format ((⟨[], []⟩ : MatchRes).groups.map maybe_convert_int)
          (mergedKwargs 0 1 entryB ⟨[], []⟩)))
      ∈ synthesize (some patB) default_output_format 0 none [entryA, entryB] 0)
    ∧ mergedKwargs 0 1 entryB ⟨[], []⟩ "index"
        = some (IntOrStr.int (0 + ((1 : Nat) : Int)))
    ∧ mergedKwargs 0 1 entryB ⟨[], []⟩ "offset_index"
        = some (IntOrStr.int (0 + ((1 : Nat) : Int) + 1))
    ∧ (synthesize (some patB) default_output_format 0 none [entryA, entryB] 0).length
        = ([entryA, entryB].filter (fun e2 => (patB e2.rel_path).isSome)).length :=
  synthesize_position_numbering patB default_output_format 0 none [entryA, entryB] 1
    entryB ⟨[], []⟩ (by decide) (by decide)

/-- C9 (code evaluated at the failing input): with `--exclude-after 1` on a
directory of three sorted entries, the catalog step keeps the first two
entries — `entries[:n + 1]` retains N+1 entries, one more than the claimed
"at most the first N". -/
theorem exclude_after_off_by_one :
    scanDir (some 1) [e1c, e2c, e3c] = [e1c, e2c]
    ∧ 1 < (scanDir (some 1) [e1c, e2c, e3c]).length := by
  constructor
  · decide
  · decide

/-- C8 (counterexample): for a directory name containing a single quote, the
emitted directory-creation line is not the escaped shell-safe form the claim
requires — the code wraps the raw path in quotes without escaping. -/
theorem quoting_unescaped_counterexample :
    mkdir_line quoteName ≠ "mkdir -p " ++ shellQuote quoteName
    ∧ mkdir_line quoteName = "mkdir -p " ++ squote ++ quoteName ++ squote := by
  constructor
  · decide
  · rfl

/-- C8 (amended): every emitted plan line is a mkdir line or a mv line whose
paths are wrapped in single quotes with no escaping; for paths containing no
single quote this coincides with proper shell quoting, so the output is
shell-safe exactly in that case. -/
theorem plan_lines_single_quoted (dirExists : String → Bool)
    (paths : List (String × String)) (d src dest : String) :
    (∀ line ∈ emitLines dirExists paths,
      (∃ d2, line = mkdir_line d2) ∨ (∃ s2 t2, line = mv_line s2 t2))
    ∧ (squoteChar ∉ d.data → mkdir_line d = "mkdir -p " ++ shellQuote d)
    ∧ (squoteChar ∉ src.data → squoteChar ∉ dest.data →
        mv_line src dest = "mv " ++ shellQuote src ++ " " ++ shellQuote dest) := by
  refine ⟨?_, ?_, ?_⟩
  · intro line hline
    simp only [emitLines, List.mem_append, List.mem_map] at hline
    rcases hline with ⟨d2, _, h⟩ | ⟨p, _, h⟩
    · exact Or.inl ⟨d2, h.symm⟩
    · exact Or.inr ⟨p.1, p.2, h.symm⟩
  · intro h
    rw [shellQuote_no_quote d h]
    simp [mkdir_line, String.append_assoc]
  · intro h1 h2
    rw [shellQuote_no_quote src h1, shellQuote_no_quote dest h2]
    simp [mv_line, String.append_assoc]

/-- Witness for C8's amended theorem: quote-free paths produce lines equal
to their properly shell-quoted forms. -/
theorem plan_lines_single_quoted_witness :
    squoteChar ∉ "out".data
    ∧ mkdir_line "out" = "mkdir -p " ++ shellQuote "out" :=
  ⟨by decide,
    (plan_lines_single_quoted (fun _ => false) [] "out" "a" "b").2.1 (by decide)⟩
